import Mathlib

set_option maxRecDepth 8000

/-!
Shallow embedding of `src/crates/rendering/src/cursor_svg.rs`, a cursor-shape
classifier over raw RGBA byte buffers, together with the bundled-asset lookup
and the file-analysis entry point.

Modelling conventions:

* Bytes are `Nat` values; the classifier only ever compares a byte with 128.
* `u32` arithmetic is modelled on `Nat` with explicit wrap-around `% 2^32`
  (`u32wrap`), the release-profile semantics of the source.  `u32 as i32`
  casts, `i32` subtraction and `i32::abs` are modelled on `Int` with explicit
  two's-complement wrap-around (`toI32`, `i32sub`, `i32abs`).
* The source compares count quotients against the `f32` literals `0.3`, `0.5`
  and `0.6` (`a as f32 / b as f32 > 0.3` etc., with `0 ≤ a ≤ b`).  These are
  modelled as the exact rational comparisons `10*a > 3*b`, `10*a > 5*b` and
  `10*a > 6*b`.  For every ratio test performed in the theorems below the
  denominator is far below `2^24`, so both counts and the quotient's distance
  from the threshold (at least `1/(10*b)`) are exactly representable up to a
  margin much larger than the rounding error of the `f32` computation, and the
  two comparisons agree.
* The source's per-pattern loop counters are `i32`; they are modelled as `Nat`
  counters.  The two agree as long as fewer than `2^31` increments happen; in
  every theorem below the counts involved are bounded by the number of
  in-bounds reads of the concrete buffer or by `width * height ≤ 1681`.
* Rust slice indexing `image_data[idx + 3]` occurs in the source only under
  the guard `idx + 3 < image_data.len()`.  The pure embedding reads through
  `List.getD`; a second, checked embedding (`detect_from_imageC`) mirrors the
  source's loop structure and performs every read through `readByte`, which
  produces an explicit error on any out-of-bounds access.  Proving the checked
  run equal to `Except.ok` of the pure run shows the guards make every read
  in-bounds.
-/

/-- Wrap-around of `u32` arithmetic (`n % 2^32`). -/
def u32wrap (n : Nat) : Nat := n % 4294967296

/-- The value of a `u32` (given here as a `Nat`) after a `as i32` cast. -/
def toI32 (n : Nat) : Int :=
  if n % 4294967296 < 2147483648 then ((n % 4294967296 : Nat) : Int)
  else ((n % 4294967296 : Nat) : Int) - 4294967296

/-- Two's-complement wrap-around into the `i32` range. -/
def wrapI32 (i : Int) : Int := (i + 2147483648) % 4294967296 - 2147483648

/-- `i32` subtraction with release-profile wrap-around. -/
def i32sub (a b : Int) : Int := wrapI32 (a - b)

/-- `i32::abs` with release-profile wrap-around (`abs i32::MIN = i32::MIN`). -/
def i32abs (i : Int) : Int := wrapI32 (Int.natAbs i)

/-- `u32` subtraction with release-profile wrap-around (used for `width - 3`,
`height - 3` in the resize edge test). -/
def u32sub (a b : Nat) : Nat :=
  (a % 4294967296 + (4294967296 - b % 4294967296)) % 4294967296

/-- The `CommonCursorType` enumeration of the source. -/
inductive CommonCursorType where
  | Arrow
  | IBeam
  | Crosshair
  | PointingHand
  | ResizeNWSE
  | ResizeEW
deriving DecidableEq

/-- `CommonCursorType::svg_filename`. -/
def svg_filename (c : CommonCursorType) : String :=
  match c with
  | CommonCursorType.Arrow => "arrow.svg"
  | CommonCursorType.IBeam => "ibeam.svg"
  | CommonCursorType.Crosshair => "crosshair.svg"
  | CommonCursorType.PointingHand => "pointing-hand.svg"
  | CommonCursorType.ResizeNWSE => "resize-nwse.svg"
  | CommonCursorType.ResizeEW => "resize-ew.svg"

/-- The pixel coordinates `(y, x)` visited by the source's nested loops
`for y in 0..height { for x in 0..width { ... } }`, in visiting order. -/
def pixels (width height : Nat) : List (Nat × Nat) :=
  (List.range height).flatMap fun y => (List.range width).map fun x => (y, x)

/-- The byte offset `((y * width + x) * 4) as usize` of a pixel; every `u32`
operation wraps, which collapses to a single wrap of the exact value. -/
def pixIdx (width : Nat) (p : Nat × Nat) : Nat :=
  u32wrap ((p.1 * width + p.2) * 4)

/-- The per-pixel test shared by all five pattern matchers: the read of the
alpha byte is attempted only under the source's guard
`idx + 3 < image_data.len()`, and the pixel counts only if `alpha > 128`. -/
def alphaOpaque (image_data : List Nat) (width : Nat) (p : Nat × Nat) : Bool :=
  decide (pixIdx width p + 3 < image_data.length) &&
  decide (128 < image_data.getD (pixIdx width p + 3) 0)

/-- Arrow test's region check `x <= width / 3 && y <= height / 3`. -/
def arrowTL (width height : Nat) (p : Nat × Nat) : Bool :=
  decide (p.2 ≤ width / 3) && decide (p.1 ≤ height / 3)

/-- I-beam test's column check `(x as i32 - center_x as i32).abs() <= 2`
with `center_x = width / 2`. -/
def ibeamCenter (width : Nat) (p : Nat × Nat) : Bool :=
  decide (i32abs (i32sub (toI32 p.2) (toI32 (width / 2))) ≤ 2)

/-- Crosshair test's cross check: within 2 of the center column or of the
center row. -/
def crossLine (width height : Nat) (p : Nat × Nat) : Bool :=
  decide (i32abs (i32sub (toI32 p.2) (toI32 (width / 2))) ≤ 2) ||
  decide (i32abs (i32sub (toI32 p.1) (toI32 (height / 2))) ≤ 2)

/-- Hand test's half check `y < mid_y` with `mid_y = height / 2`. -/
def topHalf (height : Nat) (p : Nat × Nat) : Bool :=
  decide (p.1 < height / 2)

/-- Resize test's corner check (the four quarter-size corner zones). -/
def isCornerPix (width height : Nat) (p : Nat × Nat) : Bool :=
  (decide (p.2 < width / 4) && decide (p.1 < height / 4)) ||
  (decide (u32wrap (3 * width) / 4 < p.2) && decide (u32wrap (3 * height) / 4 < p.1)) ||
  (decide (p.2 < width / 4) && decide (u32wrap (3 * height) / 4 < p.1)) ||
  (decide (u32wrap (3 * width) / 4 < p.2) && decide (p.1 < height / 4))

/-- Resize test's edge check `x < 2 || x > width - 3 || y < 2 || y > height - 3`. -/
def isEdgePix (width height : Nat) (p : Nat × Nat) : Bool :=
  decide (p.2 < 2) || decide (u32sub width 3 < p.2) ||
  decide (p.1 < 2) || decide (u32sub height 3 < p.1)

/-- `CommonCursorType::matches_arrow_pattern`. -/
def matches_arrow_pattern (image_data : List Nat) (width height : Nat) : Bool :=
  if image_data.length < u32wrap (width * height * 4) then false
  else
    let non_transparent_pixels :=
      (pixels width height).countP fun p => alphaOpaque image_data width p
    let top_left_pixels :=
      (pixels width height).countP fun p =>
        alphaOpaque image_data width p && arrowTL width height p
    decide (0 < non_transparent_pixels) &&
    decide (3 * non_transparent_pixels < 10 * top_left_pixels)

/-- `CommonCursorType::matches_ibeam_pattern`. -/
def matches_ibeam_pattern (image_data : List Nat) (width height : Nat) : Bool :=
  if image_data.length < u32wrap (width * height * 4) then false
  else
    let total_pixels :=
      (pixels width height).countP fun p => alphaOpaque image_data width p
    let center_column_pixels :=
      (pixels width height).countP fun p =>
        alphaOpaque image_data width p && ibeamCenter width p
    decide (0 < total_pixels) &&
    decide (6 * total_pixels < 10 * center_column_pixels)

/-- `CommonCursorType::matches_crosshair_pattern`. -/
def matches_crosshair_pattern (image_data : List Nat) (width height : Nat) : Bool :=
  if image_data.length < u32wrap (width * height * 4) then false
  else
    let total_pixels :=
      (pixels width height).countP fun p => alphaOpaque image_data width p
    let cross_pixels :=
      (pixels width height).countP fun p =>
        alphaOpaque image_data width p && crossLine width height p
    decide (0 < total_pixels) &&
    decide (5 * total_pixels < 10 * cross_pixels)

/-- `CommonCursorType::matches_hand_pattern`. -/
def matches_hand_pattern (image_data : List Nat) (width height : Nat) : Bool :=
  if image_data.length < u32wrap (width * height * 4) then false
  else
    let top_half_pixels :=
      (pixels width height).countP fun p =>
        alphaOpaque image_data width p && topHalf height p
    let bottom_half_pixels :=
      (pixels width height).countP fun p =>
        alphaOpaque image_data width p && !topHalf height p
    decide (top_half_pixels < bottom_half_pixels) &&
    decide (50 < bottom_half_pixels)

/-- `CommonCursorType::matches_resize_pattern`. -/
def matches_resize_pattern (image_data : List Nat) (width height : Nat) : Bool :=
  if image_data.length < u32wrap (width * height * 4) then false
  else
    let total_pixels :=
      (pixels width height).countP fun p => alphaOpaque image_data width p
    let corner_pixels :=
      (pixels width height).countP fun p =>
        alphaOpaque image_data width p && isCornerPix width height p
    let edge_pixels :=
      (pixels width height).countP fun p =>
        alphaOpaque image_data width p && isEdgePix width height p
    decide (20 < total_pixels) &&
    (decide (3 * total_pixels < 10 * corner_pixels) ||
     decide (6 * total_pixels < 10 * edge_pixels))

/-- `CommonCursorType::detect_from_image`: the ordered, gated dispatch.  Each
`if gate { if matcher { return shape } }` of the source falls through to the
next test, which is exactly this chain of conditionals. -/
def detect_from_image (image_data : List Nat) (width height : Nat) :
    Option CommonCursorType :=
  if (width ≤ 40 ∧ height ≤ 40) ∧
      matches_arrow_pattern image_data width height = true then
    some CommonCursorType.Arrow
  else if (width < height ∧ width ≤ 20 ∧ 20 ≤ height) ∧
      matches_ibeam_pattern image_data width height = true then
    some CommonCursorType.IBeam
  else if (i32abs (i32sub (toI32 width) (toI32 height)) ≤ 5 ∧
        20 ≤ width ∧ width ≤ 40) ∧
      matches_crosshair_pattern image_data width height = true then
    some CommonCursorType.Crosshair
  else if (20 ≤ width ∧ 20 ≤ height ∧ width ≤ 40 ∧ height ≤ 40) ∧
      matches_hand_pattern image_data width height = true then
    some CommonCursorType.PointingHand
  else if (16 ≤ width ∧ 16 ≤ height ∧ width ≤ 40 ∧ height ≤ 40) ∧
      matches_resize_pattern image_data width height = true then
    some CommonCursorType.ResizeNWSE
  else
    none

/-! ### The checked embedding

The same classifier, with every slice read going through `readByte`, which
errors on an out-of-bounds index, and with the per-shape loops rendered as
single monadic folds carrying the same counters as the source's loops. -/

/-- Rust slice indexing `data[i]`: a fault (modelled as `Except.error`) when
`i` is out of bounds. -/
def readByte (data : List Nat) (i : Nat) : Except String Nat :=
  if h : i < data.length then Except.ok (data.get ⟨i, h⟩)
  else Except.error "index out of bounds"

/-- The shared per-pixel visit: the guarded read of the alpha byte, returning
whether the pixel counts as opaque. -/
def visitPix (image_data : List Nat) (width : Nat) (p : Nat × Nat) :
    Except String Bool :=
  if pixIdx width p + 3 < image_data.length then
    (readByte image_data (pixIdx width p + 3)).bind fun alpha =>
      Except.ok (decide (128 < alpha))
  else
    Except.ok false

/-- One loop iteration maintaining two conditional counters. -/
def pairStep (q₁ q₂ : Nat × Nat → Bool) (acc : Nat × Nat) (p : Nat × Nat) :
    Nat × Nat :=
  (if q₁ p then acc.1 + 1 else acc.1, if q₂ p then acc.2 + 1 else acc.2)

/-- One loop iteration maintaining three conditional counters. -/
def tripleStep (q₁ q₂ q₃ : Nat × Nat → Bool) (acc : Nat × Nat × Nat)
    (p : Nat × Nat) : Nat × Nat × Nat :=
  (if q₁ p then acc.1 + 1 else acc.1,
   if q₂ p then acc.2.1 + 1 else acc.2.1,
   if q₃ p then acc.2.2 + 1 else acc.2.2)

/-- The counting loop of `matches_arrow_pattern`, with checked reads. -/
def arrowLoop (image_data : List Nat) (width height : Nat) :
    Except String (Nat × Nat) :=
  (pixels width height).foldlM
    (fun acc p =>
      (visitPix image_data width p).bind fun b =>
        if b = true then
          Except.ok
            (acc.1 + 1, if arrowTL width height p = true then acc.2 + 1 else acc.2)
        else Except.ok acc)
    (0, 0)

/-- The counting loop of `matches_ibeam_pattern`, with checked reads. -/
def ibeamLoop (image_data : List Nat) (width height : Nat) :
    Except String (Nat × Nat) :=
  (pixels width height).foldlM
    (fun acc p =>
      (visitPix image_data width p).bind fun b =>
        if b = true then
          Except.ok
            (acc.1 + 1, if ibeamCenter width p = true then acc.2 + 1 else acc.2)
        else Except.ok acc)
    (0, 0)

/-- The counting loop of `matches_crosshair_pattern`, with checked reads. -/
def crosshairLoop (image_data : List Nat) (width height : Nat) :
    Except String (Nat × Nat) :=
  (pixels width height).foldlM
    (fun acc p =>
      (visitPix image_data width p).bind fun b =>
        if b = true then
          Except.ok
            (acc.1 + 1,
             if crossLine width height p = true then acc.2 + 1 else acc.2)
        else Except.ok acc)
    (0, 0)

/-- The counting loop of `matches_hand_pattern`, with checked reads. -/
def handLoop (image_data : List Nat) (width height : Nat) :
    Except String (Nat × Nat) :=
  (pixels width height).foldlM
    (fun acc p =>
      (visitPix image_data width p).bind fun b =>
        if b = true then
          Except.ok
            (if topHalf height p = true then (acc.1 + 1, acc.2)
             else (acc.1, acc.2 + 1))
        else Except.ok acc)
    (0, 0)

/-- The counting loop of `matches_resize_pattern`, with checked reads. -/
def resizeLoop (image_data : List Nat) (width height : Nat) :
    Except String (Nat × Nat × Nat) :=
  (pixels width height).foldlM
    (fun acc p =>
      (visitPix image_data width p).bind fun b =>
        if b = true then
          Except.ok
            (acc.1 + 1,
             (if isCornerPix width height p = true then acc.2.1 + 1 else acc.2.1,
              if isEdgePix width height p = true then acc.2.2 + 1 else acc.2.2))
        else Except.ok acc)
    (0, 0, 0)

/-- `matches_arrow_pattern`, checked variant. -/
def matches_arrow_patternC (image_data : List Nat) (width height : Nat) :
    Except String Bool :=
  if image_data.length < u32wrap (width * height * 4) then Except.ok false
  else
    (arrowLoop image_data width height).bind fun c =>
      Except.ok (decide (0 < c.1) && decide (3 * c.1 < 10 * c.2))

/-- `matches_ibeam_pattern`, checked variant. -/
def matches_ibeam_patternC (image_data : List Nat) (width height : Nat) :
    Except String Bool :=
  if image_data.length < u32wrap (width * height * 4) then Except.ok false
  else
    (ibeamLoop image_data width height).bind fun c =>
      Except.ok (decide (0 < c.1) && decide (6 * c.1 < 10 * c.2))

/-- `matches_crosshair_pattern`, checked variant. -/
def matches_crosshair_patternC (image_data : List Nat) (width height : Nat) :
    Except String Bool :=
  if image_data.length < u32wrap (width * height * 4) then Except.ok false
  else
    (crosshairLoop image_data width height).bind fun c =>
      Except.ok (decide (0 < c.1) && decide (5 * c.1 < 10 * c.2))

/-- `matches_hand_pattern`, checked variant. -/
def matches_hand_patternC (image_data : List Nat) (width height : Nat) :
    Except String Bool :=
  if image_data.length < u32wrap (width * height * 4) then Except.ok false
  else
    (handLoop image_data width height).bind fun c =>
      Except.ok (decide (c.1 < c.2) && decide (50 < c.2))

/-- `matches_resize_pattern`, checked variant. -/
def matches_resize_patternC (image_data : List Nat) (width height : Nat) :
    Except String Bool :=
  if image_data.length < u32wrap (width * height * 4) then Except.ok false
  else
    (resizeLoop image_data width height).bind fun c =>
      Except.ok
        (decide (20 < c.1) &&
         (decide (3 * c.1 < 10 * c.2.1) || decide (6 * c.1 < 10 * c.2.2)))

/-- One step of the source's gated dispatch:
`if gate { if matcher { return shape } }` followed by the rest. -/
def gateStep (gate : Prop) [Decidable gate] (test : Except String Bool)
    (shape : CommonCursorType)
    (rest : Except String (Option CommonCursorType)) :
    Except String (Option CommonCursorType) :=
  if gate then
    test.bind fun b => if b = true then Except.ok (some shape) else rest
  else rest

/-- `detect_from_image`, checked variant: the same gates and matcher order,
every read checked. -/
def detect_from_imageC (image_data : List Nat) (width height : Nat) :
    Except String (Option CommonCursorType) :=
  gateStep (width ≤ 40 ∧ height ≤ 40)
    (matches_arrow_patternC image_data width height) CommonCursorType.Arrow
    (gateStep (width < height ∧ width ≤ 20 ∧ 20 ≤ height)
      (matches_ibeam_patternC image_data width height) CommonCursorType.IBeam
      (gateStep (i32abs (i32sub (toI32 width) (toI32 height)) ≤ 5 ∧
          20 ≤ width ∧ width ≤ 40)
        (matches_crosshair_patternC image_data width height)
        CommonCursorType.Crosshair
        (gateStep (20 ≤ width ∧ 20 ≤ height ∧ width ≤ 40 ∧ height ≤ 40)
          (matches_hand_patternC image_data width height)
          CommonCursorType.PointingHand
          (gateStep (16 ≤ width ∧ 16 ≤ height ∧ width ≤ 40 ∧ height ≤ 40)
            (matches_resize_patternC image_data width height)
            CommonCursorType.ResizeNWSE
            (Except.ok none)))))

/-! ### Asset lookup and the file entry point -/

/-- Modelled from the spec: the contents of the six bundled SVG files (the
`include_bytes!` targets under `apps/desktop/src/cursors/`, which are not part
of `src/`).  The spec fixes only their filenames and that each is a
permanently bundled, opaque, nonempty payload; each is therefore modelled as
the byte sequence of its fixed filename. -/
def bundled_svg (c : CommonCursorType) : List Nat :=
  (svg_filename c).data.map Char.toNat

/-- `load_cursor_svg`: returns `Some` of the embedded bytes for every shape. -/
def load_cursor_svg (cursor_type : CommonCursorType) : Option (List Nat) :=
  some (bundled_svg cursor_type)

/-- A decoded raster image: dimensions plus flattened RGBA8 bytes. -/
structure DecodedImage where
  width : Nat
  height : Nat
  rgba : List Nat

/-- `analyze_cursor_image`.  The third-party decode boundary (`image::open`
followed by `to_rgba8`/`dimensions`, modelled from the spec as an opaque
capability that either yields a decoded image or fails) is passed in as the
`decode` parameter; the source's `if let Ok(img) = ... else None` is the
`match` below. -/
def analyze_cursor_image (decode : String → Option DecodedImage)
    (image_path : String) : Option CommonCursorType :=
  match decode image_path with
  | some img => detect_from_image img.rgba img.width img.height
  | none => none

/-! ### Concrete inputs used by witnesses and counterexamples -/

/-- A decode function that always succeeds with an empty 0×0 image. -/
def decodeBlank : String → Option DecodedImage :=
  fun _ => some { width := 0, height := 0, rgba := [] }

/-- Builds a `width × height` RGBA buffer whose pixel `(y, x)` has alpha
`f x y` (and zero color channels), in the classifier's own pixel order. -/
def mkBuf (width height : Nat) (f : Nat → Nat → Nat) : List Nat :=
  (pixels width height).flatMap fun p => [0, 0, 0, f p.2 p.1]

/-- 20×20 buffer, opaque exactly on the top-left 5×5 square: passes both the
Arrow and the ResizeNWSE gate-and-test. -/
def arrowResizeBuf : List Nat :=
  mkBuf 20 20 fun x y => if x < 5 ∧ y < 5 then 255 else 0

/-- 2×2 buffer with a single opaque pixel at the origin. -/
def arrowTinyBuf : List Nat :=
  [0, 0, 0, 255, 0, 0, 0, 0, 0, 0, 0, 0, 0, 0, 0, 0]

/-- 10×30 buffer, opaque exactly on the column `x = 5`. -/
def ibeamBuf : List Nat :=
  mkBuf 10 30 fun x _ => if x = 5 then 255 else 0

/-- A four-byte buffer (one RGBA pixel with alpha 200), used with the declared
dimensions 4 × 2^30, for which `width * height * 4` wraps around `u32` to 0. -/
def shortWrapBuf : List Nat := [0, 0, 0, 200]

/-! ### Helper lemmas -/

theorem u32wrap_eq_self {n : Nat} (h : n < 4294967296) : u32wrap n = n :=
  Nat.mod_eq_of_lt h

theorem toI32_small {n : Nat} (h : n < 2147483648) : toI32 n = (n : Int) := by
  unfold toI32
  simp only [Nat.mod_eq_of_lt (show n < 4294967296 by omega)]
  rw [if_pos h]

theorem wrapI32_eq_self {i : Int} (h1 : -2147483648 ≤ i)
    (h2 : i < 2147483648) : wrapI32 i = i := by
  unfold wrapI32
  rw [Int.emod_eq_of_lt (by omega) (by omega)]
  omega

theorem i32abs_sub_small {a b : Nat} (ha : a < 2147483648)
    (hb : b < 2147483648) :
    i32abs (i32sub (toI32 a) (toI32 b)) = (((a : Int) - (b : Int)).natAbs : Int) := by
  rw [toI32_small ha, toI32_small hb]
  unfold i32sub
  rw [wrapI32_eq_self (by omega) (by omega)]
  unfold i32abs
  rw [wrapI32_eq_self (by omega) (by omega)]

theorem mem_pixels {width height y x : Nat} :
    (y, x) ∈ pixels width height ↔ y < height ∧ x < width := by
  simp only [pixels, List.mem_flatMap, List.mem_map, List.mem_range,
    Prod.mk.injEq]
  constructor
  · rintro ⟨y', hy', x', hx', hyx, hxx⟩
    exact ⟨hyx ▸ hy', hxx ▸ hx'⟩
  · rintro ⟨hy, hx⟩
    exact ⟨y, hy, x, hx, rfl, rfl⟩

theorem foldlM_ok {α β : Type} (f : β → α → Except String β) (g : β → α → β)
    (l : List α) (h : ∀ b a, a ∈ l → f b a = Except.ok (g b a)) :
    ∀ b0 : β, l.foldlM f b0 = Except.ok (l.foldl g b0) := by
  induction l with
  | nil => intro b0; rfl
  | cons x xs ih =>
    intro b0
    rw [List.foldlM_cons, List.foldl_cons, h b0 x (List.mem_cons_self x xs)]
    exact ih (fun b a ha => h b a (List.mem_cons_of_mem _ ha)) (g b0 x)

theorem foldl_pairStep (q₁ q₂ : Nat × Nat → Bool) (l : List (Nat × Nat)) :
    ∀ a b : Nat, l.foldl (pairStep q₁ q₂) (a, b) =
      (a + l.countP q₁, b + l.countP q₂) := by
  induction l with
  | nil => intro a b; simp [List.countP_nil]
  | cons x xs ih =>
    intro a b
    rw [List.foldl_cons]
    show xs.foldl (pairStep q₁ q₂)
      (if q₁ x then a + 1 else a, if q₂ x then b + 1 else b) = _
    rw [ih, List.countP_cons, List.countP_cons]
    by_cases h1 : q₁ x <;> by_cases h2 : q₂ x <;>
      simp [h1, h2] <;> omega

theorem foldl_tripleStep (q₁ q₂ q₃ : Nat × Nat → Bool)
    (l : List (Nat × Nat)) :
    ∀ a b c : Nat, l.foldl (tripleStep q₁ q₂ q₃) (a, b, c) =
      (a + l.countP q₁, b + l.countP q₂, c + l.countP q₃) := by
  induction l with
  | nil => intro a b c; simp [List.countP_nil]
  | cons x xs ih =>
    intro a b c
    rw [List.foldl_cons]
    show xs.foldl (tripleStep q₁ q₂ q₃)
      (if q₁ x then a + 1 else a, if q₂ x then b + 1 else b,
       if q₃ x then c + 1 else c) = _
    rw [ih, List.countP_cons, List.countP_cons, List.countP_cons]
    by_cases h1 : q₁ x <;> by_cases h2 : q₂ x <;> by_cases h3 : q₃ x <;>
      simp [h1, h2, h3] <;> omega

theorem visitPix_ok (image_data : List Nat) (width : Nat) (p : Nat × Nat) :
    visitPix image_data width p =
      Except.ok (alphaOpaque image_data width p) := by
  unfold visitPix alphaOpaque readByte
  by_cases h : pixIdx width p + 3 < image_data.length
  · rw [if_pos h, dif_pos h]
    show Except.ok _ = _
    congr 1
    simp [h, List.getD_eq_getElem?_getD, List.getElem?_eq_getElem h,
      List.get_eq_getElem]
  · rw [if_neg h]
    simp [h]

theorem countP_pixels (width height : Nat) (q : Nat × Nat → Bool) :
    (pixels width height).countP q =
      ((List.range height).map
        (fun y => (List.range width).countP fun x => q (y, x))).sum := by
  unfold pixels
  rw [List.countP_flatMap]
  congr 1
  apply List.map_congr_left
  intro y _
  show ((List.range width).map fun x => (y, x)).countP q = _
  rw [List.countP_map]
  rfl

theorem sum_map_ite (q : Nat → Prop) [DecidablePred q] (l : List Nat) :
    (l.map fun y => if q y then 1 else 0).sum =
      l.countP fun y => decide (q y) := by
  induction l with
  | nil => rfl
  | cons x xs ih =>
    rw [List.map_cons, List.sum_cons, ih, List.countP_cons]
    by_cases h : q x <;> simp [h] <;> omega

theorem count16 (n : Nat) :
    (List.range n).countP (fun y => decide (16 * y % 4294967296 = 0)) =
      (n + 268435455) / 268435456 := by
  induction n with
  | zero => rfl
  | succ n ih =>
    rw [List.range_succ, List.countP_append, ih, List.countP_singleton]
    by_cases h : 16 * n % 4294967296 = 0 <;> simp [h] <;> omega

theorem sum_map_const_nat {α : Type} (l : List α) (c : Nat) :
    (l.map fun _ => c).sum = l.length * c := by
  induction l with
  | nil => simp
  | cons x xs ih =>
    rw [List.map_cons, List.sum_cons, ih, List.length_cons]
    ring

theorem length_range_flatMap (B : Nat → List Nat) (c n : Nat)
    (hc : ∀ y, (B y).length = c) :
    ((List.range n).flatMap B).length = n * c := by
  rw [List.length_flatMap, Function.comp_def,
    List.map_congr_left
      (fun y _ => hc y : ∀ y ∈ List.range n, (B y).length = c),
    sum_map_const_nat, List.length_range]

theorem getD_range_flatMap (B : Nat → List Nat) (c : Nat)
    (hc : ∀ y, (B y).length = c) :
    ∀ h y j : Nat, y < h → j < c →
      ((List.range h).flatMap B).getD (y * c + j) 0 = (B y).getD j 0 := by
  intro h
  induction h with
  | zero => intro y j hy _; exact absurd hy (Nat.not_lt_zero y)
  | succ h ih =>
    intro y j hy hj
    rw [List.range_succ, List.flatMap_append]
    have hlen : ((List.range h).flatMap B).length = h * c :=
      length_range_flatMap B c h hc
    rcases Nat.lt_or_ge y h with hlt | hge
    · rw [List.getD_append _ _ _ _ ?bound]
      · exact ih y j hlt hj
      case bound =>
        rw [hlen]
        calc y * c + j < y * c + c := by omega
          _ = (y + 1) * c := by ring
          _ ≤ h * c := Nat.mul_le_mul_right c hlt
    · have hy' : y = h := by omega
      subst hy'
      rw [List.getD_append_right _ _ _ _ (by rw [hlen]; omega)]
      rw [hlen, Nat.add_sub_cancel_left]
      simp

theorem mkBuf_eq_rows (w h : Nat) (f : Nat → Nat → Nat) :
    mkBuf w h f =
      (List.range h).flatMap fun y =>
        (List.range w).flatMap fun x => [0, 0, 0, f x y] := by
  unfold mkBuf pixels
  rw [List.flatMap_assoc]
  congr 1
  funext y
  rw [List.flatMap_map]

theorem mkBuf_length (w h : Nat) (f : Nat → Nat → Nat) :
    (mkBuf w h f).length = w * h * 4 := by
  rw [mkBuf_eq_rows]
  rw [length_range_flatMap
    (fun y => (List.range w).flatMap fun x => [0, 0, 0, f x y]) (w * 4) h
    (fun y => length_range_flatMap (fun x => [0, 0, 0, f x y]) 4 w
      (fun _ => rfl))]
  ring

theorem mkBuf_getD (w h : Nat) (f : Nat → Nat → Nat) (y x : Nat)
    (hy : y < h) (hx : x < w) :
    (mkBuf w h f).getD ((y * w + x) * 4 + 3) 0 = f x y := by
  rw [mkBuf_eq_rows]
  have hidx : (y * w + x) * 4 + 3 = y * (w * 4) + (x * 4 + 3) := by ring
  rw [hidx,
    getD_range_flatMap
      (fun y => (List.range w).flatMap fun x => [0, 0, 0, f x y]) (w * 4)
      (fun y => length_range_flatMap (fun x => [0, 0, 0, f x y]) 4 w
        (fun _ => rfl))
      h y (x * 4 + 3) hy (by omega),
    getD_range_flatMap (fun x => [0, 0, 0, f x y]) 4 (fun _ => rfl)
      w x 3 hx (by omega)]
  rfl

theorem alphaOpaque_mkBuf (w h : Nat) (f : Nat → Nat → Nat) (y x : Nat)
    (hy : y < h) (hx : x < w) (hsize : w * h * 4 < 4294967296) :
    alphaOpaque (mkBuf w h f) w (y, x) = decide (128 < f x y) := by
  have hlt : (y * w + x) * 4 + 3 < w * h * 4 := by
    have h1 : y * w + x < h * w := by
      calc y * w + x < y * w + w := by omega
        _ = (y + 1) * w := by ring
        _ ≤ h * w := Nat.mul_le_mul_right w hy
    calc (y * w + x) * 4 + 3 < (y * w + x) * 4 + 4 := by omega
      _ = (y * w + x + 1) * 4 := by ring
      _ ≤ h * w * 4 := Nat.mul_le_mul_right 4 h1
      _ = w * h * 4 := by ring
  have hidx : pixIdx w (y, x) = (y * w + x) * 4 := by
    show u32wrap ((y * w + x) * 4) = (y * w + x) * 4
    exact u32wrap_eq_self (by omega)
  unfold alphaOpaque
  rw [hidx, mkBuf_length, mkBuf_getD w h f y x hy hx]
  rw [decide_eq_true hlt, Bool.true_and]

theorem countP_mkBuf (w h : Nat) (f : Nat → Nat → Nat) (q : Nat × Nat → Bool)
    (hsize : w * h * 4 < 4294967296) :
    (pixels w h).countP (fun p => alphaOpaque (mkBuf w h f) w p && q p) =
      (pixels w h).countP (fun p => decide (128 < f p.2 p.1) && q p) := by
  apply List.countP_congr
  rintro ⟨y, x⟩ hp
  have hm := mem_pixels.mp hp
  rw [alphaOpaque_mkBuf w h f y x hm.1 hm.2 hsize]

theorem countP_mkBuf_plain (w h : Nat) (f : Nat → Nat → Nat)
    (hsize : w * h * 4 < 4294967296) :
    (pixels w h).countP (fun p => alphaOpaque (mkBuf w h f) w p) =
      (pixels w h).countP (fun p => decide (128 < f p.2 p.1)) := by
  apply List.countP_congr
  rintro ⟨y, x⟩ hp
  have hm := mem_pixels.mp hp
  rw [alphaOpaque_mkBuf w h f y x hm.1 hm.2 hsize]

theorem pixIdx_add_three_mod (width : Nat) (p : Nat × Nat) :
    (pixIdx width p + 3) % 4 = 3 := by
  unfold pixIdx u32wrap
  have h1 : (p.1 * width + p.2) * 4 % 4294967296 % 4 = 0 := by
    rw [Nat.mod_mod_of_dvd _ (by norm_num)]
    omega
  omega

theorem pairLoop_eq (image_data : List Nat) (width height : Nat)
    (q : Nat × Nat → Bool) :
    (pixels width height).foldlM
      (fun acc p =>
        (visitPix image_data width p).bind fun b =>
          if b = true then
            Except.ok
              (acc.1 + 1, if q p = true then acc.2 + 1 else acc.2)
          else Except.ok acc)
      ((0 : Nat), (0 : Nat)) =
      Except.ok
        ((pixels width height).countP
          (fun p => alphaOpaque image_data width p),
         (pixels width height).countP
          (fun p => alphaOpaque image_data width p && q p)) := by
  have hstep : ∀ (b : Nat × Nat) (p : Nat × Nat), p ∈ pixels width height →
      ((visitPix image_data width p).bind fun c =>
        if c = true then
          Except.ok (b.1 + 1, if q p = true then b.2 + 1 else b.2)
        else Except.ok b) =
      Except.ok (pairStep (fun p => alphaOpaque image_data width p)
        (fun p => alphaOpaque image_data width p && q p) b p) := by
    intro b p _
    rw [visitPix_ok]
    cases hb : alphaOpaque image_data width p <;> cases hq : q p <;>
      simp [pairStep, hb, hq, Except.bind]
  rw [foldlM_ok _ _ _ hstep (0, 0), foldl_pairStep]
  simp

theorem arrowLoop_eq (image_data : List Nat) (width height : Nat) :
    arrowLoop image_data width height =
      Except.ok
        ((pixels width height).countP
          (fun p => alphaOpaque image_data width p),
         (pixels width height).countP
          (fun p => alphaOpaque image_data width p && arrowTL width height p)) :=
  pairLoop_eq image_data width height (arrowTL width height)

theorem ibeamLoop_eq (image_data : List Nat) (width height : Nat) :
    ibeamLoop image_data width height =
      Except.ok
        ((pixels width height).countP
          (fun p => alphaOpaque image_data width p),
         (pixels width height).countP
          (fun p => alphaOpaque image_data width p && ibeamCenter width p)) :=
  pairLoop_eq image_data width height (ibeamCenter width)

theorem crosshairLoop_eq (image_data : List Nat) (width height : Nat) :
    crosshairLoop image_data width height =
      Except.ok
        ((pixels width height).countP
          (fun p => alphaOpaque image_data width p),
         (pixels width height).countP
          (fun p => alphaOpaque image_data width p && crossLine width height p)) :=
  pairLoop_eq image_data width height (crossLine width height)

theorem handLoop_eq (image_data : List Nat) (width height : Nat) :
    handLoop image_data width height =
      Except.ok
        ((pixels width height).countP
          (fun p => alphaOpaque image_data width p && topHalf height p),
         (pixels width height).countP
          (fun p => alphaOpaque image_data width p && !topHalf height p)) := by
  unfold handLoop
  have hstep : ∀ (b : Nat × Nat) (p : Nat × Nat), p ∈ pixels width height →
      ((visitPix image_data width p).bind fun c =>
        if c = true then
          Except.ok
            (if topHalf height p = true then (b.1 + 1, b.2)
             else (b.1, b.2 + 1))
        else Except.ok b) =
      Except.ok
        (pairStep (fun p => alphaOpaque image_data width p && topHalf height p)
          (fun p => alphaOpaque image_data width p && !topHalf height p) b p) := by
    intro b p _
    rw [visitPix_ok]
    cases hb : alphaOpaque image_data width p <;>
      cases ht : topHalf height p <;>
      simp [pairStep, hb, ht, Except.bind]
  rw [foldlM_ok _ _ _ hstep (0, 0), foldl_pairStep]
  simp

theorem resizeLoop_eq (image_data : List Nat) (width height : Nat) :
    resizeLoop image_data width height =
      Except.ok
        ((pixels width height).countP
          (fun p => alphaOpaque image_data width p),
         (pixels width height).countP
          (fun p => alphaOpaque image_data width p && isCornerPix width height p),
         (pixels width height).countP
          (fun p => alphaOpaque image_data width p && isEdgePix width height p)) := by
  unfold resizeLoop
  have hstep : ∀ (b : Nat × Nat × Nat) (p : Nat × Nat), p ∈ pixels width height →
      ((visitPix image_data width p).bind fun c =>
        if c = true then
          Except.ok
            (b.1 + 1,
             (if isCornerPix width height p = true then b.2.1 + 1 else b.2.1,
              if isEdgePix width height p = true then b.2.2 + 1 else b.2.2))
        else Except.ok b) =
      Except.ok
        (tripleStep (fun p => alphaOpaque image_data width p)
          (fun p => alphaOpaque image_data width p && isCornerPix width height p)
          (fun p => alphaOpaque image_data width p && isEdgePix width height p)
          b p) := by
    intro b p _
    rw [visitPix_ok]
    cases hb : alphaOpaque image_data width p <;>
      cases hc : isCornerPix width height p <;>
      cases he : isEdgePix width height p <;>
      simp [tripleStep, hb, hc, he, Except.bind]
  rw [foldlM_ok _ _ _ hstep (0, 0, 0), foldl_tripleStep]
  simp

theorem matches_arrow_patternC_ok (image_data : List Nat) (width height : Nat) :
    matches_arrow_patternC image_data width height =
      Except.ok (matches_arrow_pattern image_data width height) := by
  unfold matches_arrow_patternC matches_arrow_pattern
  by_cases h : image_data.length < u32wrap (width * height * 4)
  · rw [if_pos h, if_pos h]
  · rw [if_neg h, if_neg h, arrowLoop_eq]
    rfl

theorem matches_ibeam_patternC_ok (image_data : List Nat) (width height : Nat) :
    matches_ibeam_patternC image_data width height =
      Except.ok (matches_ibeam_pattern image_data width height) := by
  unfold matches_ibeam_patternC matches_ibeam_pattern
  by_cases h : image_data.length < u32wrap (width * height * 4)
  · rw [if_pos h, if_pos h]
  · rw [if_neg h, if_neg h, ibeamLoop_eq]
    rfl

theorem matches_crosshair_patternC_ok (image_data : List Nat)
    (width height : Nat) :
    matches_crosshair_patternC image_data width height =
      Except.ok (matches_crosshair_pattern image_data width height) := by
  unfold matches_crosshair_patternC matches_crosshair_pattern
  by_cases h : image_data.length < u32wrap (width * height * 4)
  · rw [if_pos h, if_pos h]
  · rw [if_neg h, if_neg h, crosshairLoop_eq]
    rfl

theorem matches_hand_patternC_ok (image_data : List Nat) (width height : Nat) :
    matches_hand_patternC image_data width height =
      Except.ok (matches_hand_pattern image_data width height) := by
  unfold matches_hand_patternC matches_hand_pattern
  by_cases h : image_data.length < u32wrap (width * height * 4)
  · rw [if_pos h, if_pos h]
  · rw [if_neg h, if_neg h, handLoop_eq]
    rfl

theorem matches_resize_patternC_ok (image_data : List Nat) (width height : Nat) :
    matches_resize_patternC image_data width height =
      Except.ok (matches_resize_pattern image_data width height) := by
  unfold matches_resize_patternC matches_resize_pattern
  by_cases h : image_data.length < u32wrap (width * height * 4)
  · rw [if_pos h, if_pos h]
  · rw [if_neg h, if_neg h, resizeLoop_eq]
    rfl

theorem gateStep_ok (gate : Prop) [Decidable gate] (b : Bool)
    (shape : CommonCursorType) (r : Option CommonCursorType) :
    gateStep gate (Except.ok b) shape (Except.ok r) =
      Except.ok (if gate ∧ b = true then some shape else r) := by
  unfold gateStep
  by_cases hg : gate
  · rw [if_pos hg]
    cases b
    · show Except.ok r = _
      rw [if_neg (by simp)]
    · show Except.ok (some shape) = _
      rw [if_pos ⟨hg, rfl⟩]
  · rw [if_neg hg, if_neg (fun hc => hg hc.1)]

/-! ### Claim theorems -/

/-- C2: `detect_from_image` is total and never faults: for every byte buffer
and every pair of dimensions, the checked execution — which mirrors the
source's loops and performs every per-pixel slice read through `readByte`,
faulting on any out-of-bounds index — terminates without an error and returns
exactly the classifier's result.  (Totality over huge dimensions holds under
the wrap-around `u32` arithmetic of the embedding, i.e. release-profile
semantics.) -/
theorem detect_never_faults (image_data : List Nat) (width height : Nat) :
    detect_from_imageC image_data width height =
      Except.ok (detect_from_image image_data width height) := by
  unfold detect_from_imageC detect_from_image
  rw [matches_arrow_patternC_ok, matches_ibeam_patternC_ok,
    matches_crosshair_patternC_ok, matches_hand_patternC_ok,
    matches_resize_patternC_ok]
  simp only [gateStep_ok]

/-- C1: the dispatch is an ordered sequence of gated tests with Arrow first:
any buffer that passes the Arrow size gate and pattern test — even one that
also passes the ResizeNWSE gate and test — is classified as Arrow. -/
theorem detect_arrow_has_priority (image_data : List Nat) (width height : Nat)
    (hw : width ≤ 40) (hh : height ≤ 40)
    (harrow : matches_arrow_pattern image_data width height = true)
    (hw16 : 16 ≤ width) (hh16 : 16 ≤ height)
    (hresize : matches_resize_pattern image_data width height = true) :
    detect_from_image image_data width height = some CommonCursorType.Arrow := by
  unfold detect_from_image
  rw [if_pos ⟨⟨hw, hh⟩, harrow⟩]

/-- Witness for C1: a 20×20 buffer opaque exactly on its top-left 5×5 square
satisfies both the Arrow and the ResizeNWSE gate-and-test, and is classified
as Arrow. -/
theorem detect_arrow_has_priority_witness :
    detect_from_image arrowResizeBuf 20 20 = some CommonCursorType.Arrow := by
  have e : arrowResizeBuf =
      mkBuf 20 20 (fun x y => if x < 5 ∧ y < 5 then 255 else 0) := rfl
  have hguard : ¬ ((mkBuf 20 20
      (fun x y => if x < 5 ∧ y < 5 then 255 else 0)).length <
        u32wrap (20 * 20 * 4)) := by
    rw [mkBuf_length]
    decide
  have harrow : matches_arrow_pattern arrowResizeBuf 20 20 = true := by
    rw [e]
    unfold matches_arrow_pattern
    rw [if_neg hguard]
    show (decide _ && decide _) = true
    rw [countP_mkBuf_plain 20 20 _ (by norm_num),
      countP_mkBuf 20 20 _ _ (by norm_num)]
    decide
  have hresize : matches_resize_pattern arrowResizeBuf 20 20 = true := by
    rw [e]
    unfold matches_resize_pattern
    rw [if_neg hguard]
    show (decide _ && (decide _ || decide _)) = true
    rw [countP_mkBuf_plain 20 20 _ (by norm_num),
      countP_mkBuf 20 20 _ _ (by norm_num),
      countP_mkBuf 20 20 _ _ (by norm_num)]
    decide
  exact detect_arrow_has_priority arrowResizeBuf 20 20 (by norm_num)
    (by norm_num) harrow (by norm_num) (by norm_num) hresize

/-- C7: detection never yields the horizontal-resize variant: every result of
`detect_from_image` lies in the five-element set of reachable results (the
four non-resize shapes and `ResizeNWSE`, or no match); `ResizeEW` is only
constructible directly. -/
theorem detect_never_resize_ew (image_data : List Nat) (width height : Nat) :
    detect_from_image image_data width height ∈
      [none, some CommonCursorType.Arrow, some CommonCursorType.IBeam,
       some CommonCursorType.Crosshair, some CommonCursorType.PointingHand,
       some CommonCursorType.ResizeNWSE] := by
  unfold detect_from_image
  split_ifs <;> decide

/-- C3 counterexample: with width 4 and height 2^30 the product
`width * height * 4` wraps around `u32` to 0, so the coarse length guard
`image_data.len() < width * height * 4` never fires; the four-byte buffer
`shortWrapBuf` is far shorter than the mathematical `width * height * 4`,
yet its single in-bounds alpha byte (200) is read by the pixels whose wrapped
offset is 0, the I-beam gate `4 < 2^30 ∧ 4 ≤ 20 ∧ 20 ≤ 2^30` passes, all four
counted pixels sit in the center column, and the classifier returns IBeam
rather than no match. -/
theorem detect_short_buffer_refuted :
    shortWrapBuf.length < 4 * 1073741824 * 4 ∧
    detect_from_image shortWrapBuf 4 1073741824 =
      some CommonCursorType.IBeam := by
  refine ⟨by norm_num [shortWrapBuf], ?_⟩
  have hopaque : ∀ y x : Nat,
      alphaOpaque shortWrapBuf 4 (y, x) =
        decide ((y * 4 + x) * 4 % 4294967296 = 0) := by
    intro y x
    unfold alphaOpaque pixIdx u32wrap shortWrapBuf
    by_cases h0 : (y * 4 + x) * 4 % 4294967296 = 0
    · simp [h0]
    · have hge : ¬ ((y, x).1 * 4 + (y, x).2) * 4 % 4294967296 + 3 < 4 := by
        simp only
        omega
      simp [h0, hge]
  have hrow : ∀ y : Nat,
      (List.range 4).countP (fun x => alphaOpaque shortWrapBuf 4 (y, x)) =
        if 16 * y % 4294967296 = 0 then 1 else 0 := by
    intro y
    rw [show List.range 4 = [0, 1, 2, 3] from rfl]
    simp only [List.countP_cons, List.countP_nil, hopaque,
      decide_eq_true_eq]
    split_ifs <;> omega
  have htotal :
      (pixels 4 1073741824).countP
        (fun p => alphaOpaque shortWrapBuf 4 p) = 4 := by
    rw [countP_pixels]
    calc ((List.range 1073741824).map
            (fun y => (List.range 4).countP
              fun x => alphaOpaque shortWrapBuf 4 (y, x))).sum
        = ((List.range 1073741824).map
            (fun y => if 16 * y % 4294967296 = 0 then 1 else 0)).sum := by
          exact congrArg List.sum (List.map_congr_left fun y _ => hrow y)
      _ = (List.range 1073741824).countP
            (fun y => decide (16 * y % 4294967296 = 0)) :=
          sum_map_ite _ _
      _ = 4 := by rw [count16]
  have hcenter :
      (pixels 4 1073741824).countP
        (fun p => alphaOpaque shortWrapBuf 4 p && ibeamCenter 4 p) =
      (pixels 4 1073741824).countP
        (fun p => alphaOpaque shortWrapBuf 4 p) := by
    apply List.countP_congr
    rintro ⟨y, x⟩ hp
    have hx : x < 4 := (mem_pixels.mp hp).2
    have hcen : ibeamCenter 4 (y, x) = true := by
      unfold ibeamCenter
      rw [show (4 : Nat) / 2 = 2 from rfl,
        i32abs_sub_small (by omega) (by omega)]
      simp only [decide_eq_true_eq]
      omega
    simp [hcen]
  have hibeam : matches_ibeam_pattern shortWrapBuf 4 1073741824 = true := by
    unfold matches_ibeam_pattern
    rw [if_neg (by norm_num [shortWrapBuf, u32wrap])]
    show (decide (0 < (pixels 4 1073741824).countP
        (fun p => alphaOpaque shortWrapBuf 4 p)) &&
      decide (6 * (pixels 4 1073741824).countP
          (fun p => alphaOpaque shortWrapBuf 4 p) <
        10 * (pixels 4 1073741824).countP
          (fun p => alphaOpaque shortWrapBuf 4 p && ibeamCenter 4 p))) = true
    rw [htotal, hcenter, htotal]
    decide
  unfold detect_from_image
  rw [if_neg fun hc => absurd hc.1.2 (by norm_num),
    if_pos ⟨⟨by norm_num, by norm_num, by norm_num⟩, hibeam⟩]

/-- C3 (amended): when `width * height * 4` does not overflow `u32`, every
buffer shorter than `width * height * 4` bytes makes every pattern test fail
its coarse length guard, so classification returns no match. -/
theorem detect_short_buffer_none (image_data : List Nat) (width height : Nat)
    (hsize : width * height * 4 < 4294967296)
    (hlen : image_data.length < width * height * 4) :
    detect_from_image image_data width height = none := by
  have hguard : image_data.length < u32wrap (width * height * 4) := by
    rwa [u32wrap_eq_self hsize]
  have ha : matches_arrow_pattern image_data width height = false := by
    unfold matches_arrow_pattern; rw [if_pos hguard]
  have hb : matches_ibeam_pattern image_data width height = false := by
    unfold matches_ibeam_pattern; rw [if_pos hguard]
  have hc : matches_crosshair_pattern image_data width height = false := by
    unfold matches_crosshair_pattern; rw [if_pos hguard]
  have hd : matches_hand_pattern image_data width height = false := by
    unfold matches_hand_pattern; rw [if_pos hguard]
  have he : matches_resize_pattern image_data width height = false := by
    unfold matches_resize_pattern; rw [if_pos hguard]
  simp [detect_from_image, ha, hb, hc, hd, he]

/-- Witness for the amended C3: dimensions declared 32×32 with a 10-byte
buffer yield no match. -/
theorem detect_short_buffer_none_witness :
    detect_from_image (List.replicate 10 0) 32 32 = none :=
  detect_short_buffer_none (List.replicate 10 0) 32 32 (by norm_num)
    (by simp)

/-- C4: for a buffer of sufficient length, the classifier answers Arrow
exactly when the Arrow size gate holds, at least one pixel is opaque
(alpha > 128), and strictly more than 3/10 of the opaque pixels lie in the
top-left third (`x ≤ width/3` and `y ≤ height/3`). -/
theorem detect_arrow_iff (image_data : List Nat) (width height : Nat)
    (hlen : width * height * 4 ≤ image_data.length) :
    detect_from_image image_data width height = some CommonCursorType.Arrow ↔
      (width ≤ 40 ∧ height ≤ 40 ∧
        0 < (pixels width height).countP
            (fun p => alphaOpaque image_data width p) ∧
        3 * (pixels width height).countP
            (fun p => alphaOpaque image_data width p) <
          10 * (pixels width height).countP
            (fun p => alphaOpaque image_data width p &&
              arrowTL width height p)) := by
  have hguard : ¬ (image_data.length < u32wrap (width * height * 4)) := by
    have hle : u32wrap (width * height * 4) ≤ width * height * 4 :=
      Nat.mod_le _ _
    omega
  have hmat : matches_arrow_pattern image_data width height = true ↔
      (0 < (pixels width height).countP
          (fun p => alphaOpaque image_data width p) ∧
        3 * (pixels width height).countP
            (fun p => alphaOpaque image_data width p) <
          10 * (pixels width height).countP
            (fun p => alphaOpaque image_data width p &&
              arrowTL width height p)) := by
    unfold matches_arrow_pattern
    rw [if_neg hguard]
    simp only [Bool.and_eq_true, decide_eq_true_eq]
  unfold detect_from_image
  by_cases hcond : (width ≤ 40 ∧ height ≤ 40) ∧
      matches_arrow_pattern image_data width height = true
  · rw [if_pos hcond]
    have hc := hmat.mp hcond.2
    exact ⟨fun _ => ⟨hcond.1.1, hcond.1.2, hc.1, hc.2⟩, fun _ => rfl⟩
  · rw [if_neg hcond]
    constructor
    · intro hres
      exfalso
      split_ifs at hres <;> exact absurd hres (by decide)
    · rintro ⟨h1, h2, h3, h4⟩
      exact absurd ⟨⟨h1, h2⟩, hmat.mpr ⟨h3, h4⟩⟩ hcond

/-- Witness for C4: a 2×2 buffer with one opaque pixel at the origin
satisfies the conditions and is classified as Arrow. -/
theorem detect_arrow_iff_witness :
    detect_from_image arrowTinyBuf 2 2 = some CommonCursorType.Arrow :=
  (detect_arrow_iff arrowTinyBuf 2 2 (by decide)).mpr (by decide)

/-- C8: a buffer whose every alpha byte (offset congruent to 3 mod 4) is 0
has no opaque pixel, so every pattern test fails and classification returns
no match. -/
theorem detect_transparent_none (image_data : List Nat) (width height : Nat)
    (halpha : ∀ i, i % 4 = 3 → image_data.getD i 0 = 0) :
    detect_from_image image_data width height = none := by
  have hop : ∀ p : Nat × Nat, alphaOpaque image_data width p = false := by
    intro p
    unfold alphaOpaque
    rw [halpha _ (pixIdx_add_three_mod width p)]
    simp
  have hz0 : (pixels width height).countP
      (fun p => alphaOpaque image_data width p) = 0 := by
    rw [List.countP_eq_zero]
    intro p _
    simp [hop p]
  have hz : ∀ q : Nat × Nat → Bool,
      (pixels width height).countP
        (fun p => alphaOpaque image_data width p && q p) = 0 := by
    intro q
    rw [List.countP_eq_zero]
    intro p _
    simp [hop p]
  have ha : matches_arrow_pattern image_data width height = false := by
    unfold matches_arrow_pattern
    split_ifs
    · rfl
    · simp [hz0]
  have hb : matches_ibeam_pattern image_data width height = false := by
    unfold matches_ibeam_pattern
    split_ifs
    · rfl
    · simp [hz0]
  have hc : matches_crosshair_pattern image_data width height = false := by
    unfold matches_crosshair_pattern
    split_ifs
    · rfl
    · simp [hz0]
  have hd : matches_hand_pattern image_data width height = false := by
    unfold matches_hand_pattern
    split_ifs
    · rfl
    · simp [hz]
  have he : matches_resize_pattern image_data width height = false := by
    unfold matches_resize_pattern
    split_ifs
    · rfl
    · simp [hz0]
  simp [detect_from_image, ha, hb, hc, hd, he]

/-- Witness for C8: a fully transparent 1×1 buffer yields no match. -/
theorem detect_transparent_none_witness :
    detect_from_image [0, 0, 0, 0] 1 1 = none :=
  detect_transparent_none [0, 0, 0, 0] 1 1 (by
    intro i hi
    rcases i with _ | _ | _ | _ | j
    · simp at hi
    · simp at hi
    · simp at hi
    · rfl
    · rw [List.getD_eq_default _ _ (show ([0, 0, 0, 0] : List Nat).length ≤ j + 4 by
        show 4 ≤ j + 4
        omega)])

/-- C9: a 10×30 buffer whose opaque pixels all lie in columns 4–6 (and has at
least one opaque pixel) is classified as IBeam: the Arrow test, evaluated
first, rejects because no opaque pixel lies in the top-left third, and the
I-beam gate and center-column test accept. -/
theorem detect_center_column_ibeam (image_data : List Nat)
    (hlen : 10 * 30 * 4 ≤ image_data.length)
    (hcol : ∀ p ∈ pixels 10 30, alphaOpaque image_data 10 p = true →
      4 ≤ p.2 ∧ p.2 ≤ 6)
    (hsome : 0 < (pixels 10 30).countP
      fun p => alphaOpaque image_data 10 p) :
    detect_from_image image_data 10 30 = some CommonCursorType.IBeam := by
  have hguard : ¬ (image_data.length < u32wrap (10 * 30 * 4)) := by
    rw [show u32wrap (10 * 30 * 4) = 1200 from rfl]
    omega
  have htl : (pixels 10 30).countP
      (fun p => alphaOpaque image_data 10 p && arrowTL 10 30 p) = 0 := by
    rw [List.countP_eq_zero]
    intro p hp hcontra
    rw [Bool.and_eq_true] at hcontra
    have hx := hcol p hp hcontra.1
    have : p.2 ≤ 10 / 3 := by
      have := hcontra.2
      unfold arrowTL at this
      rw [Bool.and_eq_true, decide_eq_true_eq, decide_eq_true_eq] at this
      exact this.1
    omega
  have harrow : matches_arrow_pattern image_data 10 30 = false := by
    unfold matches_arrow_pattern
    rw [if_neg hguard]
    show (decide _ && decide _) = false
    rw [htl]
    simp
  have hcen : (pixels 10 30).countP
      (fun p => alphaOpaque image_data 10 p && ibeamCenter 10 p) =
      (pixels 10 30).countP (fun p => alphaOpaque image_data 10 p) := by
    apply List.countP_congr
    intro p hp
    simp only [Bool.and_eq_true, and_iff_left_iff_imp]
    intro hopq
    have hx := hcol p hp hopq
    unfold ibeamCenter
    rw [show (10 : Nat) / 2 = 5 from rfl,
      i32abs_sub_small (by omega) (by omega)]
    simp only [decide_eq_true_eq]
    omega
  have hibeam : matches_ibeam_pattern image_data 10 30 = true := by
    unfold matches_ibeam_pattern
    rw [if_neg hguard]
    show (decide _ && decide _) = true
    rw [hcen]
    rw [Bool.and_eq_true, decide_eq_true_eq, decide_eq_true_eq]
    omega
  unfold detect_from_image
  rw [if_neg fun hcond => Bool.false_ne_true (harrow ▸ hcond.2),
    if_pos ⟨⟨by norm_num, by norm_num, by norm_num⟩, hibeam⟩]

/-- Witness for C9: a 10×30 buffer opaque exactly on column 5 is classified
as IBeam. -/
theorem detect_center_column_ibeam_witness :
    detect_from_image ibeamBuf 10 30 = some CommonCursorType.IBeam := by
  have e : ibeamBuf = mkBuf 10 30 (fun x _ => if x = 5 then 255 else 0) := rfl
  have hlen : 10 * 30 * 4 ≤ ibeamBuf.length := by
    rw [e, mkBuf_length]
  have hcol : ∀ p ∈ pixels 10 30, alphaOpaque ibeamBuf 10 p = true →
      4 ≤ p.2 ∧ p.2 ≤ 6 := by
    rintro ⟨y, x⟩ hp hop
    have hm := mem_pixels.mp hp
    rw [e, alphaOpaque_mkBuf 10 30 _ y x hm.1 hm.2 (by norm_num),
      decide_eq_true_eq] at hop
    by_cases h5 : x = 5
    · omega
    · rw [if_neg h5] at hop
      omega
  have hsome : 0 < (pixels 10 30).countP
      fun p => alphaOpaque ibeamBuf 10 p := by
    rw [e, countP_mkBuf_plain 10 30 _ (by norm_num)]
    decide
  exact detect_center_column_ibeam ibeamBuf hlen hcol hsome

/-- C10: classification depends only on the alpha bytes: two equal-length
buffers agreeing at every offset congruent to 3 mod 4 classify identically;
the red, green and blue bytes are never read. -/
theorem detect_alpha_only (d1 d2 : List Nat) (width height : Nat)
    (hlen : d1.length = d2.length)
    (hal : ∀ i, i % 4 = 3 → d1.getD i 0 = d2.getD i 0) :
    detect_from_image d1 width height = detect_from_image d2 width height := by
  have hop : ∀ p : Nat × Nat,
      alphaOpaque d1 width p = alphaOpaque d2 width p := by
    intro p
    unfold alphaOpaque
    rw [hlen, hal _ (pixIdx_add_three_mod width p)]
  have hm1 : matches_arrow_pattern d1 width height =
      matches_arrow_pattern d2 width height := by
    unfold matches_arrow_pattern
    rw [hlen]
    simp only [hop]
  have hm2 : matches_ibeam_pattern d1 width height =
      matches_ibeam_pattern d2 width height := by
    unfold matches_ibeam_pattern
    rw [hlen]
    simp only [hop]
  have hm3 : matches_crosshair_pattern d1 width height =
      matches_crosshair_pattern d2 width height := by
    unfold matches_crosshair_pattern
    rw [hlen]
    simp only [hop]
  have hm4 : matches_hand_pattern d1 width height =
      matches_hand_pattern d2 width height := by
    unfold matches_hand_pattern
    rw [hlen]
    simp only [hop]
  have hm5 : matches_resize_pattern d1 width height =
      matches_resize_pattern d2 width height := by
    unfold matches_resize_pattern
    rw [hlen]
    simp only [hop]
  unfold detect_from_image
  rw [hm1, hm2, hm3, hm4, hm5]

/-- Witness for C10: two 1×1 buffers differing only in their RGB bytes
classify identically. -/
theorem detect_alpha_only_witness :
    detect_from_image [9, 9, 9, 255] 1 1 =
      detect_from_image [0, 1, 2, 255] 1 1 :=
  detect_alpha_only [9, 9, 9, 255] [0, 1, 2, 255] 1 1 rfl (by
    intro i hi
    rcases i with _ | _ | _ | _ | j
    · simp at hi
    · simp at hi
    · simp at hi
    · rfl
    · rw [List.getD_eq_default _ _ (show ([9, 9, 9, 255] : List Nat).length ≤ j + 4 by
          show 4 ≤ j + 4
          omega),
        List.getD_eq_default _ _ (show ([0, 1, 2, 255] : List Nat).length ≤ j + 4 by
          show 4 ≤ j + 4
          omega)])

/-- C5: the asset lookup is total over the closed shape enumeration: every
`CommonCursorType` value yields a present, nonempty byte sequence (and, the
lookup being a pure function of the shape, repeated calls return identical
content). -/
theorem load_cursor_svg_total (c : CommonCursorType) :
    ∃ b : List Nat, load_cursor_svg c = some b ∧ 0 < b.length := by
  refine ⟨bundled_svg c, rfl, ?_⟩
  cases c <;> simp [bundled_svg, svg_filename]

/-- C6 counterexample: a decode that succeeds on a degenerate (0×0, empty)
image still makes `analyze_cursor_image` return no value, so "returns no
value exactly when decoding fails" is false: no-value results also arise from
successfully decoded images that match no shape. -/
theorem analyze_decode_success_none :
    decodeBlank "cursor.png" =
      some { width := 0, height := 0, rgba := [] } ∧
    analyze_cursor_image decodeBlank "cursor.png" = none := by
  exact ⟨rfl, by decide⟩

/-- C6 (amended): `analyze_cursor_image` returns no value when decoding
fails, and on decode success returns precisely the classifier's result on the
decoded RGBA8 buffer and its dimensions — equivalently, it is the monadic
bind of the decode result with `detect_from_image`; decode failure is hence
indistinguishable from a decoded-but-unmatched image. -/
theorem analyze_cursor_image_eq (decode : String → Option DecodedImage)
    (image_path : String) :
    analyze_cursor_image decode image_path =
      (decode image_path).bind fun img =>
        detect_from_image img.rgba img.width img.height := by
  unfold analyze_cursor_image
  cases decode image_path <;> rfl
